import Mathlib

/-!
Shallow embedding of `nicer/mcc.py` (class `MCC`): parsing an MCC ISS
ephemeris file, building one interpolating spline per ECI axis, and
converting interpolated ECI positions to geodetic latitude/longitude.

Modelling conventions, all over exact rationals (`ℚ`):

* A file is a list of lines; a line is a list of whitespace-split tokens.
  A token is `Tok.num q` when Python's `float` would parse it (with value
  `q`), `Tok.other` for any other ordinary token, and `Tok.comment` for the
  token at which a `#` comment begins (when a `#` occurs, the model takes
  it to stand at a token boundary).  This is the granularity the parsing
  logic of `MCC.__init__` observes: `float(header2.split()[0])` on the raw
  second line, and `np.loadtxt(mccfile, usecols=(0,1,2,3), unpack=True)`
  with the default `comments='#'` on the rest — loadtxt strips each line
  from its first `#` on, skips lines that are then empty, and needs the
  first four columns of every remaining line to parse as numbers; extra
  trailing columns are ignored.
* `scipy.interpolate.InterpolatedUnivariateSpline(x, y, ext="raise")`
  (degree `k = 3`, smoothing `s = 0`) is modelled by
  `InterpolatedUnivariateSpline` below: it validates that `x` and `y` have
  equal length, then that `x` is strictly increasing (scipy's explicit
  check in `__init__`), and only then that at least `k + 1 = 4` samples
  are given (enforced inside FITPACK's curve fitting), in scipy's order.
  Evaluation
  raises out of `[x_0, x_last]` (`ext="raise"`) and otherwise evaluates a
  local cubic through four consecutive samples; this piecewise cubic stands
  in for the FITPACK B-spline and shares the properties the development
  uses: it is a cubic-order scheme that passes exactly through every sample
  and rejects out-of-range queries.
* The astropy frame transform (`GCRS(..., obstime=..) .transform_to
  (ITRS(obstime=..)) .earth_location`) is an external collaborator; it is a
  parameter `g : position → gcrsObstime → itrsObstime → lat × lon`, taking
  the two `obstime` arguments the source passes separately.
* `MET0` comes from `nicer.values`, which is not part of the sources here;
  modelled from the spec as a fixed absolute instant, passed as a
  parameter.  Absolute instants are rationals on a fixed absolute axis;
  `yearInstant y` is the instant `y`-01-01T00:00:00 UTC produced by
  astropy's `Time("{y}-01-01T00:00:00", format="isot", scale="utc")`,
  likewise a parameter.  `"{0:4.0f}".format` rounds the year to an
  integer, modelled by `round`.
-/

namespace NICERsoft

/-- Error taxonomy of the load/query path, using the spec's design names for
the Python exceptions the source raises:
`formatError` = `ValueError`/`IndexError` from header `float` parsing or
from `np.loadtxt` on a malformed data line; `badInput` = scipy's
`ValueError` for `x` and `y` of different lengths; `insufficientSamples` =
scipy's rejection of fewer than `k + 1 = 4` samples;
`notStrictlyIncreasing` = scipy's `ValueError` for non-strictly-increasing
`x` with `s = 0`; `outOfRange` = the `ValueError` of `ext="raise"`
evaluation outside the sample range; `indexError` = the `IndexError` of
`cols[0]` when the data section parses to no rows at all. -/
inductive Err where
  | formatError
  | badInput
  | insufficientSamples
  | notStrictlyIncreasing
  | outOfRange
  | indexError
  deriving DecidableEq

/-- A whitespace-split token as the consumers of a line see it: `num q`
parses as a float with value `q`, `other` is any other ordinary token, and
`comment` marks the token at which a `#` comment begins — `np.loadtxt`
(default `comments='#'`) discards it and the rest of its line, while the
header reader (`readline` + `split` + `float`) sees it as an ordinary,
unparseable token. -/
inductive Tok where
  | num (q : ℚ)
  | other
  | comment
  deriving DecidableEq

/-- Whether a token begins a `#` comment. -/
def Tok.isComment : Tok → Bool
  | .comment => true
  | _ => false

/-- One line of the file, as its list of tokens. -/
abbrev MCCLine := List Tok

/-- A whole MCC ephemeris file, as a list of token lines. -/
abbrev MCCFile := List MCCLine

/-- One parsed data row: `(raw_time_offset, x_ft, y_ft, z_ft)`. -/
abbrev Row := ℚ × ℚ × ℚ × ℚ

/-- The exact foot-to-meter factor used by `u.imperial.foot` → `u.m`:
1 ft = 0.3048 m. -/
def footm : ℚ := 3048 / 10000

/-- The cubic Lagrange polynomial through four sample points, evaluated at
`t`.  This is the local piece our model of the spline evaluates between
knots. -/
def lagrange4 (p0 p1 p2 p3 : ℚ × ℚ) (t : ℚ) : ℚ :=
  p0.2 * ((t - p1.1) * (t - p2.1) * (t - p3.1)) /
      ((p0.1 - p1.1) * (p0.1 - p2.1) * (p0.1 - p3.1))
    + p1.2 * ((t - p0.1) * (t - p2.1) * (t - p3.1)) /
      ((p1.1 - p0.1) * (p1.1 - p2.1) * (p1.1 - p3.1))
    + p2.2 * ((t - p0.1) * (t - p1.1) * (t - p3.1)) /
      ((p2.1 - p0.1) * (p2.1 - p1.1) * (p2.1 - p3.1))
    + p3.2 * ((t - p0.1) * (t - p1.1) * (t - p2.1)) /
      ((p3.1 - p0.1) * (p3.1 - p1.1) * (p3.1 - p2.1))

/-- In-range spline evaluation: slide a four-point window along the samples
until the query `t` lies no later than the window's third node (or the
window is the final four samples), then evaluate the cubic through the
window.  On lists of fewer than four points (never produced by spline
construction) it returns `0`. -/
def evalIn : List (ℚ × ℚ) → ℚ → ℚ
  | p0 :: p1 :: p2 :: p3 :: p4 :: rest, t =>
    if t ≤ p2.1 then lagrange4 p0 p1 p2 p3 t
    else evalIn (p1 :: p2 :: p3 :: p4 :: rest) t
  | [p0, p1, p2, p3], t => lagrange4 p0 p1 p2 p3 t
  | _, _ => 0

/-- A fitted interpolant: the validated `(x, y)` sample pairs it passes
through.  Stands for the scipy spline object held in `self.eci_*_interp`. -/
structure Spline where
  pts : List (ℚ × ℚ)
  deriving DecidableEq, Inhabited

/-- Lower end of the spline's valid range (`x[0]`). -/
def Spline.tmin (s : Spline) : ℚ := (s.pts.headD (0, 0)).1

/-- Upper end of the spline's valid range (`x[-1]`). -/
def Spline.tmax (s : Spline) : ℚ := (s.pts.getLastD (0, 0)).1

/-- Spline evaluation with `ext="raise"`: queries outside
`[tmin, tmax]` raise, in-range queries evaluate the interpolant. -/
def Spline.eval (s : Spline) (t : ℚ) : Except Err ℚ :=
  if t < s.tmin ∨ s.tmax < t then .error .outOfRange
  else .ok (evalIn s.pts t)

/-- Executable check that a list of sample abscissae is strictly
increasing (scipy: `np.all(diff(x) > 0.0)`). -/
def strictlyIncreasing : List ℚ → Bool
  | x :: y :: rest => x < y && strictlyIncreasing (y :: rest)
  | _ => true

/-- Model of `scipy.interpolate.InterpolatedUnivariateSpline(x, y,
ext="raise")` construction with the default degree `k = 3`, with scipy's
validation in scipy's order: `x` and `y` must have the same length, `x`
must be strictly increasing (scipy: `x must be strictly increasing if
s = 0`, raised in `__init__` before fitting), and at least `k + 1 = 4`
samples must be given (`m > k`, enforced inside FITPACK's `fpcurf0`).
For 0 or 1 samples the program's numpy/fitpack path fails with assorted
array-shape errors instead; the model folds those degenerate rejections
into `insufficientSamples`, and no theorem below relies on the error's
identity for fewer than 2 samples. -/
def InterpolatedUnivariateSpline (xs ys : List ℚ) : Except Err Spline :=
  if xs.length ≠ ys.length then .error .badInput
  else if strictlyIncreasing xs then
    if xs.length ≤ 3 then .error .insufficientSamples
    else .ok ⟨xs.zip ys⟩
  else .error .notStrictlyIncreasing

/-- Header parsing of `MCC.__init__`: read two lines, split the second on
whitespace and `float`-parse its first token as the epoch year
(`self.mcc_epoch_year`).  A missing line, an empty second line, or an
unparseable first token raises. -/
def parseEpochYear (f : MCCFile) : Except Err ℚ :=
  match f with
  | _header1 :: header2 :: _ =>
    match header2 with
    | .num y :: _ => .ok y
    | _ => .error .formatError
  | _ => .error .formatError

/-- One comment-stripped data line as read by
`np.loadtxt(usecols=(0,1,2,3))`: the first four tokens must be present and
numeric; extra trailing tokens are ignored. -/
def parseRow (l : MCCLine) : Except Err Row :=
  match l with
  | .num a :: .num b :: .num c :: .num d :: _ => .ok (a, b, c, d)
  | _ => .error .formatError

/-- Comment stripping as `np.loadtxt` (default `comments='#'`) performs
it: everything from the first `#` on is discarded. -/
def stripComment (l : MCCLine) : MCCLine :=
  l.takeWhile (fun t => ! t.isComment)

/-- The data section as read by `np.loadtxt`: each line is stripped of any
`#` comment, lines that are then empty are skipped, and every remaining
line must parse as a row. -/
def parseRows (ls : List MCCLine) : Except Err (List Row) :=
  ((ls.map stripComment).filter (fun l => !l.isEmpty)).mapM parseRow

/-- The state of a constructed `MCC` object: the fields `__init__` binds on
`self`.  `t` is the list of absolute sample instants, `met` the sample
times as seconds since `MET0`, `eci_x/y/z` the positions in meters,
`eci_*_interp` the fitted axis splines, and `lat`/`lon` the eagerly
computed geodetic track at the samples. -/
structure MCC where
  mcc_epoch_year : ℚ
  mcc_epoch : ℚ
  t : List ℚ
  met : List ℚ
  eci_x : List ℚ
  eci_y : List ℚ
  eci_z : List ℚ
  eci_x_interp : Spline
  eci_y_interp : Spline
  eci_z_interp : Spline
  lat : List ℚ
  lon : List ℚ
  deriving DecidableEq, Inhabited

/-- The absolute sample instants `self.t = cols[0]*u.s + self.mcc_epoch`,
where `self.mcc_epoch` is `yearInstant` of the rounded epoch year. -/
def mccT (yearInstant : ℤ → ℚ) (year : ℚ) (rows : List Row) : List ℚ :=
  rows.map (fun r => r.1 + yearInstant (round year))

/-- The sample times relative to the mission epoch,
`self.met = (self.t - MET0).to(u.s).value`. -/
def mccMet (MET0 : ℚ) (t : List ℚ) : List ℚ :=
  t.map (fun ti => ti - MET0)

/-- `self.eci_x = (cols[1] * u.imperial.foot).to(u.m)`. -/
def mccEx (rows : List Row) : List ℚ := rows.map (fun r => r.2.1 * footm)

/-- `self.eci_y = (cols[2] * u.imperial.foot).to(u.m)`. -/
def mccEy (rows : List Row) : List ℚ := rows.map (fun r => r.2.2.1 * footm)

/-- `self.eci_z = (cols[3] * u.imperial.foot).to(u.m)`. -/
def mccEz (rows : List Row) : List ℚ := rows.map (fun r => r.2.2.2 * footm)

/-- The eagerly computed geodetic track at the samples: each sample's
position handed to the frame transform at that sample's own absolute
instant (`GCRS(cart, obstime=self.t)` → `ITRS(obstime=self.t)`), as
`(lat, lon)` pairs. -/
def mccTrack (g : ℚ × ℚ × ℚ → ℚ → ℚ → ℚ × ℚ) (t ex ey ez : List ℚ) :
    List (ℚ × ℚ) :=
  (t.zip ((ex.zip ey).zip ez)).map
    (fun p => g (p.2.1.1, p.2.1.2, p.2.2) p.1 p.1)

/-- `MCC.__init__` after the file has been read into token lines:
parse the epoch year from line 2, `np.loadtxt` the data lines (raising
`IndexError` at `cols[0]` when no data rows remain), derive
`self.t = cols[0]*u.s + self.mcc_epoch`,
`self.met = (self.t - MET0).to(u.s).value`, convert positions from feet to
meters, fit the three axis splines, and eagerly convert all sample
positions to geodetic latitude/longitude at their own absolute instants.
`g` is the external astropy transform (position, GCRS obstime, ITRS
obstime) ↦ (lat, lon); `MET0` and `yearInstant` model `nicer.values.MET0`
and `astropy.time.Time` as described in the header comment. -/
def MCC.init (g : ℚ × ℚ × ℚ → ℚ → ℚ → ℚ × ℚ) (MET0 : ℚ)
    (yearInstant : ℤ → ℚ) (f : MCCFile) : Except Err MCC :=
  match parseEpochYear f with
  | .error e => .error e
  | .ok year =>
    match parseRows (f.drop 2) with
    | .error e => .error e
    | .ok rows =>
      if rows.isEmpty then .error .indexError
      else
      match InterpolatedUnivariateSpline
          (mccMet MET0 (mccT yearInstant year rows)) (mccEx rows) with
      | .error e => .error e
      | .ok sx =>
        match InterpolatedUnivariateSpline
            (mccMet MET0 (mccT yearInstant year rows)) (mccEy rows) with
        | .error e => .error e
        | .ok sy =>
          match InterpolatedUnivariateSpline
              (mccMet MET0 (mccT yearInstant year rows)) (mccEz rows) with
          | .error e => .error e
          | .ok sz =>
            .ok { mcc_epoch_year := year,
                  mcc_epoch := yearInstant (round year),
                  t := mccT yearInstant year rows,
                  met := mccMet MET0 (mccT yearInstant year rows),
                  eci_x := mccEx rows, eci_y := mccEy rows,
                  eci_z := mccEz rows,
                  eci_x_interp := sx, eci_y_interp := sy,
                  eci_z_interp := sz,
                  lat := (mccTrack g (mccT yearInstant year rows)
                    (mccEx rows) (mccEy rows) (mccEz rows)).map Prod.fst,
                  lon := (mccTrack g (mccT yearInstant year rows)
                    (mccEx rows) (mccEy rows) (mccEz rows)).map Prod.snd }

/-- `MCC.latlon(met)`, in state-passing form (the method receives `self`
and, since Python methods may rebind attributes, returns the resulting
`self`; this body only reads).  Evaluates the three axis splines at the
query offset, then hands the interpolated position to the astropy
transform at the absolute instant `MET0 + met * u.s`, passed as the
`obstime` of both the `GCRS` coordinate and the target `ITRS` frame. -/
def MCC.latlon (g : ℚ × ℚ × ℚ → ℚ → ℚ → ℚ × ℚ) (MET0 : ℚ) (m : MCC)
    (met : ℚ) : Except Err (ℚ × ℚ) × MCC :=
  match m.eci_x_interp.eval met with
  | .error e => (.error e, m)
  | .ok x =>
    match m.eci_y_interp.eval met with
    | .error e => (.error e, m)
    | .ok y =>
      match m.eci_z_interp.eval met with
      | .error e => (.error e, m)
      | .ok z =>
        (.ok (g (x, y, z) (MET0 + met) (MET0 + met)), m)

/-! Python-3 execution model for the first statement of `MCC.__init__`,
`mccfile = file(mccname)`.  Python resolves the callee name before
evaluating the argument or performing any I/O: local scope, then the
module's global scope, then the builtins.  The module's globals are the
names bound by its import statements plus the star import
`from nicer.values import *`.  Modelled from the spec: `nicer.values` is
not among the sources here; per the spec it supplies the single read-only
constant `MET0`, so the star import is modelled as binding exactly
`MET0`. -/

/-- Names bound at module scope in `nicer/mcc.py`: the aliased and direct
imports, the star import from `nicer.values` (modelled from the spec as
`MET0`), and the class being defined. -/
def mccModuleGlobals : List String :=
  ["np", "u", "Time", "InterpolatedUnivariateSpline", "GCRS", "ITRS",
   "EarthLocation", "CartesianRepresentation",
   "get_body_barycentric_posvel", "MET0", "MCC"]

/-- The Python 3 builtins relevant to this module.  Python 3 removed the
Python 2 builtin `file`; `open` is the remaining file constructor. -/
def python3Builtins : List String :=
  ["open", "float", "format", "print", "len", "range", "int", "str",
   "list", "dict", "tuple", "object", "type", "Exception", "ValueError",
   "NameError", "IndexError"]

/-- Python 3 name resolution for a global name used inside a method body:
module globals, then builtins. -/
def resolvesInPython3 (n : String) : Bool :=
  mccModuleGlobals.contains n || python3Builtins.contains n

/-- A Python error, as far as this model needs: a `NameError` carrying the
unresolved name. -/
inductive PyErr where
  | nameError (n : String)
  deriving DecidableEq

/-- The observable outcome of running `MCC.__init__(self, mccname)` under
Python 3 up to its first statement: either the callee `file` resolves and
the file named `mccname` is opened (second component lists the files
opened), or name resolution fails and a `NameError` propagates before any
file is touched. -/
def mccInitPython3 (mccname : String) : Except PyErr Unit × List String :=
  if resolvesInPython3 "file" then (.ok (), [mccname])
  else (.error (.nameError "file"), [])

end NICERsoft

deriving instance DecidableEq for Except

namespace NICERsoft

/-! Helper lemmas about the interpolant model. -/

theorem strictlyIncreasing_iff_chain' :
    ∀ xs : List ℚ, strictlyIncreasing xs = true ↔ List.Chain' (· < ·) xs
  | [] => by simp [strictlyIncreasing]
  | [_] => by simp [strictlyIncreasing]
  | x :: y :: rest => by
    have ih := strictlyIncreasing_iff_chain' (y :: rest)
    rw [List.chain'_cons]
    simp only [strictlyIncreasing, Bool.and_eq_true, decide_eq_true_eq, ih]

theorem lagrange4_node0 (p0 p1 p2 p3 : ℚ × ℚ) (h01 : p0.1 < p1.1)
    (h12 : p1.1 < p2.1) (h23 : p2.1 < p3.1) :
    lagrange4 p0 p1 p2 p3 p0.1 = p0.2 := by
  have d1 : p0.1 - p1.1 ≠ 0 := sub_ne_zero.mpr (ne_of_lt h01)
  have d2 : p0.1 - p2.1 ≠ 0 := sub_ne_zero.mpr (ne_of_lt (h01.trans h12))
  have d3 : p0.1 - p3.1 ≠ 0 :=
    sub_ne_zero.mpr (ne_of_lt ((h01.trans h12).trans h23))
  simp only [lagrange4, sub_self, zero_mul, mul_zero, zero_div, add_zero,
    zero_add]
  rw [mul_div_assoc, div_self (mul_ne_zero (mul_ne_zero d1 d2) d3), mul_one]

theorem lagrange4_node1 (p0 p1 p2 p3 : ℚ × ℚ) (h01 : p0.1 < p1.1)
    (h12 : p1.1 < p2.1) (h23 : p2.1 < p3.1) :
    lagrange4 p0 p1 p2 p3 p1.1 = p1.2 := by
  have d1 : p1.1 - p0.1 ≠ 0 := sub_ne_zero.mpr (ne_of_gt h01)
  have d2 : p1.1 - p2.1 ≠ 0 := sub_ne_zero.mpr (ne_of_lt h12)
  have d3 : p1.1 - p3.1 ≠ 0 := sub_ne_zero.mpr (ne_of_lt (h12.trans h23))
  simp only [lagrange4, sub_self, zero_mul, mul_zero, zero_div, add_zero,
    zero_add]
  rw [mul_div_assoc, div_self (mul_ne_zero (mul_ne_zero d1 d2) d3), mul_one]

theorem lagrange4_node2 (p0 p1 p2 p3 : ℚ × ℚ) (h01 : p0.1 < p1.1)
    (h12 : p1.1 < p2.1) (h23 : p2.1 < p3.1) :
    lagrange4 p0 p1 p2 p3 p2.1 = p2.2 := by
  have d1 : p2.1 - p0.1 ≠ 0 := sub_ne_zero.mpr (ne_of_gt (h01.trans h12))
  have d2 : p2.1 - p1.1 ≠ 0 := sub_ne_zero.mpr (ne_of_gt h12)
  have d3 : p2.1 - p3.1 ≠ 0 := sub_ne_zero.mpr (ne_of_lt h23)
  simp only [lagrange4, sub_self, zero_mul, mul_zero, zero_div, add_zero,
    zero_add]
  rw [mul_div_assoc, div_self (mul_ne_zero (mul_ne_zero d1 d2) d3), mul_one]

theorem lagrange4_node3 (p0 p1 p2 p3 : ℚ × ℚ) (h01 : p0.1 < p1.1)
    (h12 : p1.1 < p2.1) (h23 : p2.1 < p3.1) :
    lagrange4 p0 p1 p2 p3 p3.1 = p3.2 := by
  have d1 : p3.1 - p0.1 ≠ 0 :=
    sub_ne_zero.mpr (ne_of_gt ((h01.trans h12).trans h23))
  have d2 : p3.1 - p1.1 ≠ 0 := sub_ne_zero.mpr (ne_of_gt (h12.trans h23))
  have d3 : p3.1 - p2.1 ≠ 0 := sub_ne_zero.mpr (ne_of_gt h23)
  simp only [lagrange4, sub_self, zero_mul, mul_zero, zero_div, add_zero,
    zero_add]
  rw [mul_div_assoc, div_self (mul_ne_zero (mul_ne_zero d1 d2) d3), mul_one]

end NICERsoft

namespace NICERsoft

theorem evalIn_at_node :
    ∀ pts : List (ℚ × ℚ), List.Pairwise (fun p q : ℚ × ℚ => p.1 < q.1) pts →
      ∀ (k : ℕ) (hk : k < pts.length), 4 ≤ pts.length →
        evalIn pts (pts.get ⟨k, hk⟩).1 = (pts.get ⟨k, hk⟩).2
  | [], _, _, hk, _ => by simp at hk
  | [_], _, _, _, hlen => by simp at hlen
  | [_, _], _, _, _, hlen => by simp at hlen
  | [_, _, _], _, _, _, hlen => by simp at hlen
  | [p0, p1, p2, p3], hp, k, hk, _ => by
    have h01 : p0.1 < p1.1 := by
      simpa using List.pairwise_iff_getElem.mp hp 0 1 (by simp) (by simp) (by omega)
    have h12 : p1.1 < p2.1 := by
      simpa using List.pairwise_iff_getElem.mp hp 1 2 (by simp) (by simp) (by omega)
    have h23 : p2.1 < p3.1 := by
      simpa using List.pairwise_iff_getElem.mp hp 2 3 (by simp) (by simp) (by omega)
    simp only [List.length_cons, List.length_nil] at hk
    interval_cases k
    · simpa only [evalIn, List.get] using lagrange4_node0 p0 p1 p2 p3 h01 h12 h23
    · simpa only [evalIn, List.get] using lagrange4_node1 p0 p1 p2 p3 h01 h12 h23
    · simpa only [evalIn, List.get] using lagrange4_node2 p0 p1 p2 p3 h01 h12 h23
    · simpa only [evalIn, List.get] using lagrange4_node3 p0 p1 p2 p3 h01 h12 h23
  | p0 :: p1 :: p2 :: p3 :: p4 :: rest, hp, k, hk, _ => by
    have h01 : p0.1 < p1.1 := by
      simpa using List.pairwise_iff_getElem.mp hp 0 1 (by simp) (by simp) (by omega)
    have h12 : p1.1 < p2.1 := by
      simpa using List.pairwise_iff_getElem.mp hp 1 2 (by simp) (by simp) (by omega)
    have h23 : p2.1 < p3.1 := by
      simpa using List.pairwise_iff_getElem.mp hp 2 3 (by simp) (by simp) (by omega)
    match k with
    | 0 =>
      have hle : p0.1 ≤ p2.1 := le_of_lt (h01.trans h12)
      simpa only [evalIn, List.get, if_pos hle] using
        lagrange4_node0 p0 p1 p2 p3 h01 h12 h23
    | 1 =>
      have hle : p1.1 ≤ p2.1 := le_of_lt h12
      simpa only [evalIn, List.get, if_pos hle] using
        lagrange4_node1 p0 p1 p2 p3 h01 h12 h23
    | 2 =>
      have hle : p2.1 ≤ p2.1 := le_rfl
      simpa only [evalIn, List.get, if_pos hle] using
        lagrange4_node2 p0 p1 p2 p3 h01 h12 h23
    | (n + 3) =>
      have hk' : n + 2 < (p1 :: p2 :: p3 :: p4 :: rest).length := by
        simp only [List.length_cons] at hk ⊢; omega
      have hgt : p2.1 < ((p0 :: p1 :: p2 :: p3 :: p4 :: rest).get ⟨n + 3, hk⟩).1 := by
        have h2k := List.pairwise_iff_getElem.mp hp 2 (n + 3) (by simp) hk (by omega)
        simpa [List.get_eq_getElem] using h2k
      have hget : (p0 :: p1 :: p2 :: p3 :: p4 :: rest).get ⟨n + 3, hk⟩ =
          (p1 :: p2 :: p3 :: p4 :: rest).get ⟨n + 2, hk'⟩ := rfl
      have ih := evalIn_at_node (p1 :: p2 :: p3 :: p4 :: rest) hp.of_cons
        (n + 2) hk' (by simp only [List.length_cons]; omega)
      rw [hget] at hgt ⊢
      simp only [evalIn, if_neg (not_le.mpr hgt)]
      exact ih


theorem pairwise_fst_zip (xs ys : List ℚ) (h : List.Chain' (· < ·) xs) :
    List.Pairwise (fun p q : ℚ × ℚ => p.1 < q.1) (xs.zip ys) := by
  have hpw : List.Pairwise (· < ·) xs := (List.chain'_iff_pairwise).mp h
  refine List.pairwise_iff_getElem.mpr ?_
  intro i j hi hj hij
  have hi' : i < xs.length := lt_of_lt_of_le hi (by simp [List.length_zip])
  have hj' : j < xs.length := lt_of_lt_of_le hj (by simp [List.length_zip])
  have := List.pairwise_iff_getElem.mp hpw i j hi' hj' hij
  simpa [List.getElem_zip] using this

theorem headD_eq_get {α : Type} (l : List α) (d : α) (h : 0 < l.length) :
    l.headD d = l.get ⟨0, h⟩ := by
  cases l with
  | nil => simp at h
  | cons a tl => rfl

theorem getLastD_eq_get {α : Type} (l : List α) (d : α) (h : 0 < l.length) :
    l.getLastD d = l.get ⟨l.length - 1, by omega⟩ := by
  rw [List.getLastD_eq_getLast?, List.getLast?_eq_getElem?,
    List.getElem?_eq_getElem (by omega)]
  simp [List.get_eq_getElem]

theorem Spline.eval_at_node (xs ys : List ℚ) (hlen : xs.length = ys.length)
    (hch : List.Chain' (· < ·) xs) (h4 : 4 ≤ xs.length)
    (k : ℕ) (hk : k < xs.length) :
    Spline.eval ⟨xs.zip ys⟩ (xs.get ⟨k, hk⟩) =
      .ok (ys.get ⟨k, hlen ▸ hk⟩) := by
  have hzlen : (xs.zip ys).length = xs.length := by
    simp [List.length_zip, hlen]
  have hpz := pairwise_fst_zip xs ys hch
  have hk' : k < (xs.zip ys).length := by omega
  have hx1 : ((xs.zip ys).get ⟨k, hk'⟩).1 = xs.get ⟨k, hk⟩ := by
    simp [List.get_eq_getElem, List.getElem_zip]
  have hx2 : ((xs.zip ys).get ⟨k, hk'⟩).2 = ys.get ⟨k, hlen ▸ hk⟩ := by
    simp [List.get_eq_getElem, List.getElem_zip]
  have h0 : 0 < (xs.zip ys).length := by omega
  have htmin : Spline.tmin ⟨xs.zip ys⟩ = ((xs.zip ys).get ⟨0, h0⟩).1 := by
    simp only [Spline.tmin, headD_eq_get _ _ h0]
  have htmax : Spline.tmax ⟨xs.zip ys⟩ =
      ((xs.zip ys).get ⟨(xs.zip ys).length - 1, by omega⟩).1 := by
    simp only [Spline.tmax, getLastD_eq_get _ _ h0]
  have hmono := List.pairwise_iff_getElem.mp hpz
  have hlow : Spline.tmin ⟨xs.zip ys⟩ ≤ ((xs.zip ys).get ⟨k, hk'⟩).1 := by
    rw [htmin]
    rcases Nat.eq_zero_or_pos k with hk0 | hk0
    · subst hk0; exact le_rfl
    · have hx := hmono 0 k h0 hk' hk0
      exact le_of_lt (by simpa [List.get_eq_getElem] using hx)
  have hhigh : ((xs.zip ys).get ⟨k, hk'⟩).1 ≤ Spline.tmax ⟨xs.zip ys⟩ := by
    rw [htmax]
    rcases Nat.lt_or_ge k ((xs.zip ys).length - 1) with hkl | hkl
    · have hx := hmono k ((xs.zip ys).length - 1) hk' (by omega) hkl
      exact le_of_lt (by simpa [List.get_eq_getElem] using hx)
    · have hke : k = (xs.zip ys).length - 1 := by omega
      subst hke; exact le_rfl
  have hnotout : ¬(xs.get ⟨k, hk⟩ < Spline.tmin ⟨xs.zip ys⟩ ∨
      Spline.tmax ⟨xs.zip ys⟩ < xs.get ⟨k, hk⟩) := by
    rw [← hx1]
    push_neg
    exact ⟨hlow, hhigh⟩
  have hnode := evalIn_at_node (xs.zip ys) hpz k hk' (by omega)
  rw [hx1, hx2] at hnode
  simp only [Spline.eval, if_neg hnotout]
  rw [hnode]

theorem IUS_ok (xs ys : List ℚ) (s : Spline)
    (h : InterpolatedUnivariateSpline xs ys = .ok s) :
    xs.length = ys.length ∧ 3 < xs.length ∧ List.Chain' (· < ·) xs ∧
      s = ⟨xs.zip ys⟩ := by
  obtain ⟨pl⟩ := s
  unfold InterpolatedUnivariateSpline at h
  split_ifs at h with h1 h2 h3
  all_goals simp at h
  exact ⟨by omega, by omega, (strictlyIncreasing_iff_chain' xs).mp h2,
    by cases h; rfl⟩

theorem IUS_insufficient (xs ys : List ℚ) (hlen : xs.length = ys.length)
    (hinc : strictlyIncreasing xs = true) (h3 : xs.length ≤ 3) :
    InterpolatedUnivariateSpline xs ys = .error .insufficientSamples := by
  unfold InterpolatedUnivariateSpline
  rw [if_neg (by omega), if_pos hinc, if_pos h3]

theorem MCC.init_ok (g : ℚ × ℚ × ℚ → ℚ → ℚ → ℚ × ℚ) (MET0 : ℚ)
    (yearInstant : ℤ → ℚ) (f : MCCFile) (m : MCC)
    (h : MCC.init g MET0 yearInstant f = .ok m) :
    ∃ year rows, parseEpochYear f = .ok year ∧
      parseRows (f.drop 2) = .ok rows ∧
      m.mcc_epoch_year = year ∧
      m.mcc_epoch = yearInstant (round year) ∧
      m.t = mccT yearInstant year rows ∧
      m.met = mccMet MET0 m.t ∧
      m.eci_x = mccEx rows ∧
      m.eci_y = mccEy rows ∧
      m.eci_z = mccEz rows ∧
      m.eci_x_interp = ⟨m.met.zip m.eci_x⟩ ∧
      m.eci_y_interp = ⟨m.met.zip m.eci_y⟩ ∧
      m.eci_z_interp = ⟨m.met.zip m.eci_z⟩ ∧
      3 < m.met.length ∧ List.Chain' (· < ·) m.met ∧
      m.lat = (mccTrack g m.t m.eci_x m.eci_y m.eci_z).map Prod.fst ∧
      m.lon = (mccTrack g m.t m.eci_x m.eci_y m.eci_z).map Prod.snd := by
  unfold MCC.init at h
  split at h
  · exact absurd h (by simp)
  next year hy =>
    split at h
    · exact absurd h (by simp)
    next rows hr =>
      split at h
      · exact absurd h (by simp)
      split at h
      · exact absurd h (by simp)
      next sx hsx =>
        split at h
        · exact absurd h (by simp)
        next sy hsy =>
          split at h
          · exact absurd h (by simp)
          next sz hsz =>
            obtain ⟨hl1, hl2, hch, hsx1⟩ := IUS_ok _ _ _ hsx
            obtain ⟨-, -, -, hsy1⟩ := IUS_ok _ _ _ hsy
            obtain ⟨-, -, -, hsz1⟩ := IUS_ok _ _ _ hsz
            injection h with h
            subst h
            exact ⟨year, rows, hy, hr, rfl, rfl, rfl, rfl, rfl, rfl, rfl,
              hsx1, hsy1, hsz1, by simpa using hl2, hch, rfl, rfl⟩

theorem getD_eq_get {α : Type} (l : List α) (d : α) (k : ℕ)
    (hk : k < l.length) : l.getD k d = l.get ⟨k, hk⟩ := by
  simp [List.getD_eq_getElem?_getD, List.getElem?_eq_getElem hk,
    List.get_eq_getElem]

/-- C1: at every sample, `latlon` through the interpolants reproduces the
eagerly stored geodetic track entry for that sample. -/
theorem latlon_at_sample (g : ℚ × ℚ × ℚ → ℚ → ℚ → ℚ × ℚ) (MET0 : ℚ)
    (yearInstant : ℤ → ℚ) (f : MCCFile) (m : MCC)
    (h : MCC.init g MET0 yearInstant f = .ok m)
    (k : ℕ) (hk : k < m.met.length) :
    MCC.latlon g MET0 m (m.met.get ⟨k, hk⟩) =
      (.ok (m.lat.getD k 0, m.lon.getD k 0), m) := by
  obtain ⟨year, rows, hy, hr, hey, hep, ht, hmet, hxe, hye, hze,
    hsx, hsy, hsz, hlen4, hch, hlat, hlon⟩ := MCC.init_ok _ _ _ _ _ h
  have htlen : m.t.length = rows.length := by rw [ht]; simp [mccT]
  have hmlen : m.met.length = m.t.length := by rw [hmet]; simp [mccMet]
  have hxlen : m.eci_x.length = rows.length := by rw [hxe]; simp [mccEx]
  have hylen : m.eci_y.length = rows.length := by rw [hye]; simp [mccEy]
  have hzlen : m.eci_z.length = rows.length := by rw [hze]; simp [mccEz]
  have hkt : k < m.t.length := by omega
  have hkx : k < m.eci_x.length := by omega
  have hky : k < m.eci_y.length := by omega
  have hkz : k < m.eci_z.length := by omega
  have hevx : m.eci_x_interp.eval (m.met.get ⟨k, hk⟩) =
      .ok (m.eci_x.get ⟨k, hkx⟩) := by
    rw [hsx]
    exact Spline.eval_at_node m.met m.eci_x (by omega) hch (by omega) k hk
  have hevy : m.eci_y_interp.eval (m.met.get ⟨k, hk⟩) =
      .ok (m.eci_y.get ⟨k, hky⟩) := by
    rw [hsy]
    exact Spline.eval_at_node m.met m.eci_y (by omega) hch (by omega) k hk
  have hevz : m.eci_z_interp.eval (m.met.get ⟨k, hk⟩) =
      .ok (m.eci_z.get ⟨k, hkz⟩) := by
    rw [hsz]
    exact Spline.eval_at_node m.met m.eci_z (by omega) hch (by omega) k hk
  have hstep : MCC.latlon g MET0 m (m.met.get ⟨k, hk⟩) =
      (.ok (g (m.eci_x.get ⟨k, hkx⟩, m.eci_y.get ⟨k, hky⟩,
        m.eci_z.get ⟨k, hkz⟩) (MET0 + m.met.get ⟨k, hk⟩)
        (MET0 + m.met.get ⟨k, hk⟩)), m) := by
    unfold MCC.latlon
    rw [hevx, hevy, hevz]
  have hinstant : MET0 + m.met.get ⟨k, hk⟩ = m.t.get ⟨k, hkt⟩ := by
    have h1 : m.met.get ⟨k, hk⟩ = m.met.getD k 0 := (getD_eq_get _ _ _ hk).symm
    have h2 : m.t.get ⟨k, hkt⟩ = m.t.getD k 0 := (getD_eq_get _ _ _ hkt).symm
    have hk2 : k < (mccMet MET0 m.t).length := by simp only [mccMet, List.length_map]; omega
    rw [h1, h2, hmet, getD_eq_get _ _ _ hk2, getD_eq_get _ _ _ hkt]
    simp only [mccMet, List.get_eq_getElem, List.getElem_map]
    ring
  have htrlen : (mccTrack g m.t m.eci_x m.eci_y m.eci_z).length =
      rows.length := by
    simp only [mccTrack, List.length_map, List.length_zip]
    omega
  have hktr : k < (mccTrack g m.t m.eci_x m.eci_y m.eci_z).length := by omega
  have htrk : getElem (mccTrack g m.t m.eci_x m.eci_y m.eci_z) k hktr =
      g (m.eci_x.get ⟨k, hkx⟩, m.eci_y.get ⟨k, hky⟩, m.eci_z.get ⟨k, hkz⟩)
        (m.t.get ⟨k, hkt⟩) (m.t.get ⟨k, hkt⟩) := by
    simp only [mccTrack, List.get_eq_getElem, List.getElem_map,
      List.getElem_zip]
  have hlatk : m.lat.getD k 0 =
      (g (m.eci_x.get ⟨k, hkx⟩, m.eci_y.get ⟨k, hky⟩, m.eci_z.get ⟨k, hkz⟩)
        (m.t.get ⟨k, hkt⟩) (m.t.get ⟨k, hkt⟩)).1 := by
    rw [hlat, getD_eq_get _ _ _ (by simpa using hktr)]
    simp only [List.get_eq_getElem, List.getElem_map]
    rw [htrk]
    simp only [List.get_eq_getElem]
  have hlonk : m.lon.getD k 0 =
      (g (m.eci_x.get ⟨k, hkx⟩, m.eci_y.get ⟨k, hky⟩, m.eci_z.get ⟨k, hkz⟩)
        (m.t.get ⟨k, hkt⟩) (m.t.get ⟨k, hkt⟩)).2 := by
    rw [hlon, getD_eq_get _ _ _ (by simpa using hktr)]
    simp only [List.get_eq_getElem, List.getElem_map]
    rw [htrk]
    simp only [List.get_eq_getElem]
  rw [hstep, hinstant, hlatk, hlonk]

theorem Spline.tmin_zip (xs ys : List ℚ) (h0 : 0 < xs.length)
    (h0y : 0 < ys.length) : Spline.tmin ⟨xs.zip ys⟩ = xs.getD 0 0 := by
  cases xs with
  | nil => simp at h0
  | cons a tl =>
    cases ys with
    | nil => simp at h0y
    | cons b tlb => rfl

theorem Spline.tmax_zip (xs ys : List ℚ) (hlen : xs.length = ys.length)
    (h0 : 0 < xs.length) :
    Spline.tmax ⟨xs.zip ys⟩ = xs.getD (xs.length - 1) 0 := by
  have hz : (xs.zip ys).length = xs.length := by simp [List.length_zip, hlen]
  have h0' : 0 < (xs.zip ys).length := by omega
  simp only [Spline.tmax]
  rw [getLastD_eq_get _ _ h0',
    getD_eq_get _ _ _ (show xs.length - 1 < xs.length by omega)]
  simp only [List.get_eq_getElem, List.getElem_zip, hz]

theorem latlon_out_aux (g : ℚ × ℚ × ℚ → ℚ → ℚ → ℚ × ℚ) (MET0 : ℚ)
    (yearInstant : ℤ → ℚ) (f : MCCFile) (m : MCC)
    (h : MCC.init g MET0 yearInstant f = .ok m) (t : ℚ)
    (hout : t < m.met.getD 0 0 ∨ m.met.getD (m.met.length - 1) 0 < t) :
    MCC.latlon g MET0 m t = (.error .outOfRange, m) := by
  obtain ⟨year, rows, -, -, -, -, ht, hmet, hxe, hye, hze,
    hsx, hsy, hsz, hlen4, hch, -, -⟩ := MCC.init_ok _ _ _ _ _ h
  have htlen : m.t.length = rows.length := by rw [ht]; simp [mccT]
  have hmlen : m.met.length = m.t.length := by rw [hmet]; simp [mccMet]
  have hxlen : m.eci_x.length = rows.length := by rw [hxe]; simp [mccEx]
  have hc : t < Spline.tmin ⟨m.met.zip m.eci_x⟩ ∨
      Spline.tmax ⟨m.met.zip m.eci_x⟩ < t := by
    rw [Spline.tmin_zip _ _ (by omega) (by omega),
      Spline.tmax_zip _ _ (by omega) (by omega)]
    exact hout
  have hevx : m.eci_x_interp.eval t = .error .outOfRange := by
    rw [hsx]
    unfold Spline.eval
    rw [if_pos hc]
  unfold MCC.latlon
  rw [hevx]

theorem latlon_inrange_aux (g : ℚ × ℚ × ℚ → ℚ → ℚ → ℚ × ℚ) (MET0 : ℚ)
    (yearInstant : ℤ → ℚ) (f : MCCFile) (m : MCC)
    (h : MCC.init g MET0 yearInstant f = .ok m) (t : ℚ)
    (hlow : m.met.getD 0 0 ≤ t)
    (hhigh : t ≤ m.met.getD (m.met.length - 1) 0) :
    MCC.latlon g MET0 m t =
      (.ok (g (evalIn (m.met.zip m.eci_x) t, evalIn (m.met.zip m.eci_y) t,
        evalIn (m.met.zip m.eci_z) t) (MET0 + t) (MET0 + t)), m) := by
  obtain ⟨year, rows, -, -, -, -, ht, hmet, hxe, hye, hze,
    hsx, hsy, hsz, hlen4, hch, -, -⟩ := MCC.init_ok _ _ _ _ _ h
  have htlen : m.t.length = rows.length := by rw [ht]; simp [mccT]
  have hmlen : m.met.length = m.t.length := by rw [hmet]; simp [mccMet]
  have hxlen : m.eci_x.length = rows.length := by rw [hxe]; simp [mccEx]
  have hylen : m.eci_y.length = rows.length := by rw [hye]; simp [mccEy]
  have hzlen : m.eci_z.length = rows.length := by rw [hze]; simp [mccEz]
  have hcx : ¬(t < Spline.tmin ⟨m.met.zip m.eci_x⟩ ∨
      Spline.tmax ⟨m.met.zip m.eci_x⟩ < t) := by
    rw [Spline.tmin_zip _ _ (by omega) (by omega),
      Spline.tmax_zip _ _ (by omega) (by omega)]
    push_neg
    exact ⟨hlow, hhigh⟩
  have hcy : ¬(t < Spline.tmin ⟨m.met.zip m.eci_y⟩ ∨
      Spline.tmax ⟨m.met.zip m.eci_y⟩ < t) := by
    rw [Spline.tmin_zip _ _ (by omega) (by omega),
      Spline.tmax_zip _ _ (by omega) (by omega)]
    push_neg
    exact ⟨hlow, hhigh⟩
  have hcz : ¬(t < Spline.tmin ⟨m.met.zip m.eci_z⟩ ∨
      Spline.tmax ⟨m.met.zip m.eci_z⟩ < t) := by
    rw [Spline.tmin_zip _ _ (by omega) (by omega),
      Spline.tmax_zip _ _ (by omega) (by omega)]
    push_neg
    exact ⟨hlow, hhigh⟩
  have hevx : m.eci_x_interp.eval t = .ok (evalIn (m.met.zip m.eci_x) t) := by
    rw [hsx]; unfold Spline.eval; rw [if_neg hcx]
  have hevy : m.eci_y_interp.eval t = .ok (evalIn (m.met.zip m.eci_y) t) := by
    rw [hsy]; unfold Spline.eval; rw [if_neg hcy]
  have hevz : m.eci_z_interp.eval t = .ok (evalIn (m.met.zip m.eci_z) t) := by
    rw [hsz]; unfold Spline.eval; rw [if_neg hcz]
  unfold MCC.latlon
  rw [hevx, hevy, hevz]

theorem met_bounds_le (g : ℚ × ℚ × ℚ → ℚ → ℚ → ℚ × ℚ) (MET0 : ℚ)
    (yearInstant : ℤ → ℚ) (f : MCCFile) (m : MCC)
    (h : MCC.init g MET0 yearInstant f = .ok m) (k : ℕ)
    (hk : k < m.met.length) :
    m.met.getD 0 0 ≤ m.met.getD k 0 ∧
      m.met.getD k 0 ≤ m.met.getD (m.met.length - 1) 0 := by
  obtain ⟨year, rows, -, -, -, -, -, -, -, -, -, -, -, -, hlen4, hch, -, -⟩ :=
    MCC.init_ok _ _ _ _ _ h
  have hpw : List.Pairwise (· < ·) m.met := List.chain'_iff_pairwise.mp hch
  have hmono := List.pairwise_iff_getElem.mp hpw
  constructor
  · rw [getD_eq_get _ _ _ (show 0 < m.met.length by omega),
      getD_eq_get _ _ _ hk]
    rcases Nat.eq_zero_or_pos k with h0 | h0
    · subst h0; exact le_rfl
    · exact le_of_lt (hmono 0 k (by omega) hk h0)
  · rw [getD_eq_get _ _ _ hk,
      getD_eq_get _ _ _ (show m.met.length - 1 < m.met.length by omega)]
    rcases Nat.lt_or_ge k (m.met.length - 1) with hkl | hkl
    · exact le_of_lt (hmono k (m.met.length - 1) hk (by omega) hkl)
    · have : k = m.met.length - 1 := by omega
      subst this; exact le_rfl

/-- C2: an out-of-range query fails with `OutOfRangeError`, exact boundary
queries succeed, and a failed query leaves the instance unchanged so a
subsequent in-range query still succeeds. -/
theorem latlon_range_rejection (g : ℚ × ℚ × ℚ → ℚ → ℚ → ℚ × ℚ) (MET0 : ℚ)
    (yearInstant : ℤ → ℚ) (f : MCCFile) (m : MCC)
    (h : MCC.init g MET0 yearInstant f = .ok m) (t u : ℚ)
    (hout : t < m.met.getD 0 0 ∨ m.met.getD (m.met.length - 1) 0 < t)
    (hulow : m.met.getD 0 0 ≤ u)
    (huhigh : u ≤ m.met.getD (m.met.length - 1) 0) :
    MCC.latlon g MET0 m t = (.error .outOfRange, m) ∧
    (∃ p, MCC.latlon g MET0 m (m.met.getD 0 0) = (.ok p, m)) ∧
    (∃ p, MCC.latlon g MET0 m (m.met.getD (m.met.length - 1) 0) =
      (.ok p, m)) ∧
    (∃ p, MCC.latlon g MET0 (MCC.latlon g MET0 m t).2 u = (.ok p, m)) := by
  have hlen4 : 3 < m.met.length := by
    obtain ⟨_, _, -, -, -, -, -, -, -, -, -, -, -, -, hlen4, -, -, -⟩ :=
      MCC.init_ok _ _ _ _ _ h
    exact hlen4
  have hbound0 := met_bounds_le g MET0 yearInstant f m h 0 (by omega)
  have hboundl := met_bounds_le g MET0 yearInstant f m h (m.met.length - 1)
    (by omega)
  have hfail := latlon_out_aux g MET0 yearInstant f m h t hout
  refine ⟨hfail, ⟨_, latlon_inrange_aux g MET0 yearInstant f m h _
      le_rfl hbound0.2⟩,
    ⟨_, latlon_inrange_aux g MET0 yearInstant f m h _ hboundl.1 le_rfl⟩, ?_⟩
  rw [hfail]
  exact ⟨_, latlon_inrange_aux g MET0 yearInstant f m h u hulow huhigh⟩

/-- C5: every successful query hands the transform the absolute instant
`MET0 + t`, and that same instant is used for both the GCRS coordinate's
obstime and the ITRS target frame's obstime. -/
theorem latlon_absolute_instant (g : ℚ × ℚ × ℚ → ℚ → ℚ → ℚ × ℚ) (MET0 : ℚ)
    (yearInstant : ℤ → ℚ) (f : MCCFile) (m : MCC)
    (h : MCC.init g MET0 yearInstant f = .ok m) (t : ℚ)
    (hlow : m.met.getD 0 0 ≤ t)
    (hhigh : t ≤ m.met.getD (m.met.length - 1) 0) :
    ∃ pos, MCC.latlon g MET0 m t = (.ok (g pos (MET0 + t) (MET0 + t)), m) :=
  ⟨_, latlon_inrange_aux g MET0 yearInstant f m h t hlow hhigh⟩

/-- C9: a query has no effect on the instance, and repeating the same
query returns the identical result. -/
theorem latlon_deterministic (g : ℚ × ℚ × ℚ → ℚ → ℚ → ℚ × ℚ) (MET0 : ℚ)
    (m : MCC) (t : ℚ) :
    (MCC.latlon g MET0 m t).2 = m ∧
    (MCC.latlon g MET0 (MCC.latlon g MET0 m t).2 t).1 =
      (MCC.latlon g MET0 m t).1 := by
  have h2 : (MCC.latlon g MET0 m t).2 = m := by
    unfold MCC.latlon
    rcases m.eci_x_interp.eval t with e | x
    · rfl
    · rcases m.eci_y_interp.eval t with e | y
      · rfl
      · rcases m.eci_z_interp.eval t with e | z
        · rfl
        · rfl
  exact ⟨h2, by rw [h2]⟩

/-- C3: every stored time offset is `(mission_epoch + raw_offset) - MET0`,
with the mission epoch derived from line 2's first token. -/
theorem met_epoch_arithmetic (g : ℚ × ℚ × ℚ → ℚ → ℚ → ℚ × ℚ) (MET0 : ℚ)
    (yearInstant : ℤ → ℚ) (f : MCCFile) (m : MCC) (year : ℚ)
    (rows : List Row) (h : MCC.init g MET0 yearInstant f = .ok m)
    (hy : parseEpochYear f = .ok year)
    (hr : parseRows (f.drop 2) = .ok rows)
    (k : ℕ) (hk : k < m.met.length) :
    m.mcc_epoch = yearInstant (round year) ∧
    m.met.getD k 0 = (m.mcc_epoch + (rows.getD k default).1) - MET0 := by
  obtain ⟨year', rows', hy', hr', -, hep, ht, hmet, -, -, -, -, -, -,
    hlen4, -, -, -⟩ := MCC.init_ok _ _ _ _ _ h
  have hyy : year = year' := by
    have := hy.symm.trans hy'
    injection this
  have hrr : rows = rows' := by
    have := hr.symm.trans hr'
    injection this
  subst hyy
  subst hrr
  have htlen : m.t.length = rows.length := by rw [ht]; simp [mccT]
  have hmlen : m.met.length = m.t.length := by rw [hmet]; simp [mccMet]
  have hkr : k < rows.length := by omega
  refine ⟨hep, ?_⟩
  have h1 : m.met.getD k 0 = m.t.getD k 0 - MET0 := by
    rw [hmet, getD_eq_get _ _ _ (show k < (mccMet MET0 m.t).length by
        simp only [mccMet, List.length_map]; omega),
      getD_eq_get _ _ _ (show k < m.t.length by omega)]
    simp only [mccMet, List.get_eq_getElem, List.getElem_map]
  have h2 : m.t.getD k 0 = (rows.getD k default).1 + yearInstant
      (round year) := by
    rw [ht, getD_eq_get _ _ _ (show k < (mccT yearInstant year rows).length
        by simp only [mccT, List.length_map]; omega),
      getD_eq_get _ _ _ hkr]
    simp only [mccT, List.get_eq_getElem, List.getElem_map]
  rw [h1, h2, hep]
  ring

/-- C4: every stored position component is the file's value times exactly
0.3048 (feet to meters). -/
theorem position_feet_to_meters (g : ℚ × ℚ × ℚ → ℚ → ℚ → ℚ × ℚ)
    (MET0 : ℚ) (yearInstant : ℤ → ℚ) (f : MCCFile) (m : MCC)
    (rows : List Row) (h : MCC.init g MET0 yearInstant f = .ok m)
    (hr : parseRows (f.drop 2) = .ok rows)
    (k : ℕ) (hk : k < m.eci_x.length) :
    m.eci_x.getD k 0 = (rows.getD k default).2.1 * (3048 / 10000) ∧
    m.eci_y.getD k 0 = (rows.getD k default).2.2.1 * (3048 / 10000) ∧
    m.eci_z.getD k 0 = (rows.getD k default).2.2.2 * (3048 / 10000) := by
  obtain ⟨year', rows', hy', hr', -, -, -, -, hxe, hye, hze, -, -, -,
    -, -, -, -⟩ := MCC.init_ok _ _ _ _ _ h
  have hrr : rows = rows' := by
    have := hr.symm.trans hr'
    injection this
  subst hrr
  have hxlen : m.eci_x.length = rows.length := by rw [hxe]; simp [mccEx]
  have hkr : k < rows.length := by omega
  refine ⟨?_, ?_, ?_⟩
  · rw [hxe, getD_eq_get _ _ _ (show k < (mccEx rows).length by
        simp only [mccEx, List.length_map]; omega),
      getD_eq_get _ _ _ hkr]
    simp only [mccEx, footm, List.get_eq_getElem, List.getElem_map]
  · rw [hye, getD_eq_get _ _ _ (show k < (mccEy rows).length by
        simp only [mccEy, List.length_map]; omega),
      getD_eq_get _ _ _ hkr]
    simp only [mccEy, footm, List.get_eq_getElem, List.getElem_map]
  · rw [hze, getD_eq_get _ _ _ (show k < (mccEz rows).length by
        simp only [mccEz, List.length_map]; omega),
      getD_eq_get _ _ _ hkr]
    simp only [mccEz, footm, List.get_eq_getElem, List.getElem_map]

/-- C6 (amended): a parsed table with 3 or fewer rows never yields an
instance; when it has 2 or 3 rows and strictly increasing derived sample
times, the failure is `InsufficientSamplesError` (a non-monotonic small
table instead fails scipy's strictly-increasing check first, and an empty
table fails at `cols[0]`). -/
theorem insufficient_samples_rejected (g : ℚ × ℚ × ℚ → ℚ → ℚ → ℚ × ℚ)
    (MET0 : ℚ) (yearInstant : ℤ → ℚ) (f : MCCFile) (year : ℚ)
    (rows : List Row) (hy : parseEpochYear f = .ok year)
    (hr : parseRows (f.drop 2) = .ok rows) (hle : rows.length ≤ 3) :
    (2 ≤ rows.length →
      List.Chain' (· < ·) (mccMet MET0 (mccT yearInstant year rows)) →
      MCC.init g MET0 yearInstant f = .error .insufficientSamples) ∧
    (∀ m, MCC.init g MET0 yearInstant f ≠ .ok m) := by
  constructor
  · intro h2 hch
    have hne : rows.isEmpty = false := by
      cases rows with
      | nil => simp at h2
      | cons a tl => rfl
    have hlen : (mccMet MET0 (mccT yearInstant year rows)).length =
        (mccEx rows).length := by
      simp [mccMet, mccT, mccEx]
    have hinc : strictlyIncreasing
        (mccMet MET0 (mccT yearInstant year rows)) = true :=
      (strictlyIncreasing_iff_chain' _).mpr hch
    have hle' : (mccMet MET0 (mccT yearInstant year rows)).length ≤ 3 := by
      simp only [mccMet, mccT, List.length_map]
      omega
    unfold MCC.init
    simp only [hy, hr, hne, Bool.false_eq_true, if_false,
      IUS_insufficient _ _ hlen hinc hle']
  · intro m h
    obtain ⟨year', rows', hy', hr', -, -, ht, hmet, -, -, -, -, -, -,
      hlen4, -, -, -⟩ := MCC.init_ok _ _ _ _ _ h
    have hrr : rows = rows' := by
      have := hr.symm.trans hr'
      injection this
    subst hrr
    have : m.met.length = rows.length := by
      rw [hmet, ht]
      simp [mccMet, mccT]
    omega

/-- Whether line 2 exists and its first token is numeric (parseable as the
epoch year). -/
def headerYearOk (f : MCCFile) : Bool :=
  match f with
  | _ :: (.num _ :: _) :: _ => true
  | _ => false

/-- Whether a comment-stripped data line has its first four fields present
and numeric. -/
def rowOk (l : MCCLine) : Bool :=
  match l with
  | .num _ :: .num _ :: .num _ :: .num _ :: _ => true
  | _ => false

theorem except_bind_ok {ε α β : Type} (x : α) (g : α → Except ε β) :
    (Except.ok x >>= g) = g x := rfl

theorem except_bind_error {ε α β : Type} (e : ε) (g : α → Except ε β) :
    ((Except.error e : Except ε α) >>= g) = .error e := rfl

theorem parseEpochYear_cases (f : MCCFile) :
    (∃ y, parseEpochYear f = .ok y ∧ headerYearOk f = true) ∨
      (parseEpochYear f = .error .formatError ∧ headerYearOk f = false) := by
  match f with
  | [] => exact Or.inr ⟨rfl, rfl⟩
  | [_] => exact Or.inr ⟨rfl, rfl⟩
  | _ :: [] :: _ => exact Or.inr ⟨rfl, rfl⟩
  | _ :: (.other :: _) :: _ => exact Or.inr ⟨rfl, rfl⟩
  | _ :: (.comment :: _) :: _ => exact Or.inr ⟨rfl, rfl⟩
  | _ :: (.num y :: _) :: _ => exact Or.inl ⟨y, rfl, rfl⟩

theorem parseRow_cases (l : MCCLine) :
    (∃ r, parseRow l = .ok r ∧ rowOk l = true) ∨
      (parseRow l = .error .formatError ∧ rowOk l = false) := by
  match l with
  | .num a :: .num b :: .num c :: .num d :: _ =>
    exact Or.inl ⟨(a, b, c, d), rfl, rfl⟩
  | [] => exact Or.inr ⟨rfl, rfl⟩
  | .other :: _ => exact Or.inr ⟨rfl, rfl⟩
  | .comment :: _ => exact Or.inr ⟨rfl, rfl⟩
  | .num _ :: [] => exact Or.inr ⟨rfl, rfl⟩
  | .num _ :: .other :: _ => exact Or.inr ⟨rfl, rfl⟩
  | .num _ :: .comment :: _ => exact Or.inr ⟨rfl, rfl⟩
  | .num _ :: .num _ :: [] => exact Or.inr ⟨rfl, rfl⟩
  | .num _ :: .num _ :: .other :: _ => exact Or.inr ⟨rfl, rfl⟩
  | .num _ :: .num _ :: .comment :: _ => exact Or.inr ⟨rfl, rfl⟩
  | .num _ :: .num _ :: .num _ :: [] => exact Or.inr ⟨rfl, rfl⟩
  | .num _ :: .num _ :: .num _ :: .other :: _ => exact Or.inr ⟨rfl, rfl⟩
  | .num _ :: .num _ :: .num _ :: .comment :: _ => exact Or.inr ⟨rfl, rfl⟩

theorem mapM_parseRow_error (L : List MCCLine) (e : Err) :
    L.mapM parseRow = .error e ↔
      (e = .formatError ∧ ∃ l ∈ L, rowOk l = false) := by
  induction L generalizing e with
  | nil =>
    rw [List.mapM_nil]
    simp [pure, Except.pure]
  | cons l ls ih =>
    rw [List.mapM_cons]
    rcases parseRow_cases l with ⟨r, hok, hrowT⟩ | ⟨herr, hrowF⟩
    · rw [hok, except_bind_ok]
      rcases hm : ls.mapM parseRow with e' | xs
      · rw [except_bind_error]
        have hih := (ih e').mp hm
        constructor
        · intro hh
          injection hh with hh
          subst hh
          obtain ⟨he', l', hl', hbad'⟩ := hih
          exact ⟨he', l', List.Mem.tail _ hl', hbad'⟩
        · rintro ⟨he, -⟩
          subst he
          rw [hih.1]
      · rw [except_bind_ok]
        constructor
        · intro hh
          exact absurd hh (by simp [pure, Except.pure])
        · rintro ⟨he, l', hmem', hbad'⟩
          rcases List.mem_cons.mp hmem' with rfl | hmem''
          · rw [hrowT] at hbad'; cases hbad'
          · have hcontra : ls.mapM parseRow = .error e :=
              (ih e).mpr ⟨he, l', hmem'', hbad'⟩
            rw [hm] at hcontra
            cases hcontra
    · rw [herr, except_bind_error]
      constructor
      · intro hh
        injection hh with hh
        exact ⟨hh.symm, l, List.mem_cons_self l ls, hrowF⟩
      · rintro ⟨he, -⟩
        subst he
        rfl

theorem mapM_parseRow_ok (L : List MCCLine) (rs : List Row)
    (h : L.mapM parseRow = .ok rs) : ∀ l ∈ L, rowOk l = true := by
  intro l hmem
  rcases parseRow_cases l with ⟨r, -, hT⟩ | ⟨herr, hF⟩
  · exact hT
  · exfalso
    induction L generalizing rs with
    | nil => cases hmem
    | cons a as ih =>
      rw [List.mapM_cons] at h
      rcases List.mem_cons.mp hmem with rfl | hmem'
      · rw [herr, except_bind_error] at h
        cases h
      · rcases parseRow_cases a with ⟨ra, hoka, -⟩ | ⟨herra, -⟩
        · rw [hoka, except_bind_ok] at h
          rcases hm : as.mapM parseRow with e' | xs
          · rw [hm, except_bind_error] at h; cases h
          · exact ih xs hm hmem'
        · rw [herra, except_bind_error] at h; cases h

theorem parseRows_error_iff (ls : List MCCLine) (e : Err) :
    parseRows ls = .error e ↔
      (e = .formatError ∧ ∃ l ∈ ls, (stripComment l).isEmpty = false ∧
        rowOk (stripComment l) = false) := by
  unfold parseRows
  rw [mapM_parseRow_error]
  constructor
  · rintro ⟨he, l', hmem, hbad⟩
    obtain ⟨hmem1, hne⟩ := List.mem_filter.mp hmem
    obtain ⟨l, hl, rfl⟩ := List.mem_map.mp hmem1
    exact ⟨he, l, hl, by simpa using hne, hbad⟩
  · rintro ⟨he, l, hmem, hne, hbad⟩
    exact ⟨he, stripComment l,
      List.mem_filter.mpr ⟨List.mem_map.mpr ⟨l, hmem, rfl⟩, by simp [hne]⟩,
      hbad⟩

theorem IUS_ne_format (xs ys : List ℚ) :
    InterpolatedUnivariateSpline xs ys ≠ .error .formatError := by
  unfold InterpolatedUnivariateSpline
  split_ifs <;> simp

/-- C7 (amended): loading fails with `FormatError` exactly when line 2's
first token is not parseable as a year or some data line that is still
non-empty after `#`-comment stripping lacks four leading numeric fields
(comment-only and blank lines are skipped by `np.loadtxt`).  A well-formed
file with fewer than 4 data lines never fails with `FormatError`: it fails
later, at `cols[0]` when no rows remain and at spline construction
otherwise. -/
theorem init_formatError_iff (g : ℚ × ℚ × ℚ → ℚ → ℚ → ℚ × ℚ) (MET0 : ℚ)
    (yearInstant : ℤ → ℚ) (f : MCCFile) :
    MCC.init g MET0 yearInstant f = .error .formatError ↔
      headerYearOk f = false ∨
        ∃ l ∈ f.drop 2, (stripComment l).isEmpty = false ∧
          rowOk (stripComment l) = false := by
  constructor
  · intro h
    rcases parseEpochYear_cases f with ⟨y, hok, hT⟩ | ⟨herr, hF⟩
    · right
      rcases hrows : parseRows (f.drop 2) with e | rows
      · exact ((parseRows_error_iff _ _).mp hrows).2
      · exfalso
        unfold MCC.init at h
        simp only [hok, hrows] at h
        split at h
        · simp at h
        split at h
        · next e1 he1 =>
          injection h with h1
          subst h1
          exact IUS_ne_format _ _ he1
        next s1 hs1 =>
          split at h
          · next e2 he2 =>
            injection h with h2
            subst h2
            exact IUS_ne_format _ _ he2
          next s2 hs2 =>
            split at h
            · next e3 he3 =>
              injection h with h3
              subst h3
              exact IUS_ne_format _ _ he3
            next s3 hs3 => cases h
    · left
      exact hF
  · intro h
    rcases parseEpochYear_cases f with ⟨y, hok, hT⟩ | ⟨herr, hF'⟩
    · rcases h with hF | ⟨l, hmem, hne, hbad⟩
      · rw [hT] at hF; cases hF
      · have hre : parseRows (f.drop 2) = .error .formatError := by
          rcases hrows : parseRows (f.drop 2) with e | rows
          · have := (parseRows_error_iff _ _).mp hrows
            rw [← this.1]
          · exfalso
            have hallok := mapM_parseRow_ok _ _ hrows
            have hmem' : stripComment l ∈
                ((f.drop 2).map stripComment).filter
                  (fun l => !l.isEmpty) :=
              List.mem_filter.mpr
                ⟨List.mem_map.mpr ⟨l, hmem, rfl⟩, by simp [hne]⟩
            have := hallok (stripComment l) hmem'
            rw [hbad] at this
            cases this
        unfold MCC.init
        simp only [hok, hre]
    · unfold MCC.init
      simp only [herr]

/-- C8: a successfully loaded table has non-decreasing, duplicate-free
sample times, and an input whose derived sample times are not strictly
increasing is rejected rather than producing a usable table. -/
theorem met_monotone_nodup (g : ℚ × ℚ × ℚ → ℚ → ℚ → ℚ × ℚ) (MET0 : ℚ)
    (yearInstant : ℤ → ℚ) (f : MCCFile) (year : ℚ) (rows : List Row)
    (hy : parseEpochYear f = .ok year)
    (hr : parseRows (f.drop 2) = .ok rows) :
    (∀ m, MCC.init g MET0 yearInstant f = .ok m →
      List.Chain' (· ≤ ·) m.met ∧ m.met.Nodup) ∧
    (¬ List.Chain' (· < ·) (mccMet MET0 (mccT yearInstant year rows)) →
      ∀ m, MCC.init g MET0 yearInstant f ≠ .ok m) := by
  constructor
  · intro m h
    obtain ⟨year', rows', -, -, -, -, -, -, -, -, -, -, -, -, -, hch,
      -, -⟩ := MCC.init_ok _ _ _ _ _ h
    refine ⟨hch.imp (fun a b hab => le_of_lt hab), ?_⟩
    have hpw : List.Pairwise (· < ·) m.met := List.chain'_iff_pairwise.mp hch
    exact hpw.imp (fun hab => ne_of_lt hab)
  · intro hns m h
    obtain ⟨year', rows', hy', hr', -, -, ht, hmet, -, -, -, -, -, -, -,
      hch, -, -⟩ := MCC.init_ok _ _ _ _ _ h
    have hyy : year = year' := by
      have := hy.symm.trans hy'
      injection this
    have hrr : rows = rows' := by
      have := hr.symm.trans hr'
      injection this
    subst hyy
    subst hrr
    rw [hmet, ht] at hch
    exact hns hch

/-- C10: under Python 3 the constructor's first statement resolves the
name `file`, which neither the module globals nor the Python 3 builtins
bind, so a `NameError` is raised for every path argument before any file
is opened. -/
theorem python3_init_nameError (mccname : String) :
    mccInitPython3 mccname = (.error (.nameError "file"), []) ∧
      resolvesInPython3 "file" = false := by
  have hres : resolvesInPython3 "file" = false := by decide
  refine ⟨?_, hres⟩
  unfold mccInitPython3
  rw [hres]
  rfl

set_option maxRecDepth 8000

attribute [local semireducible] Rat.add Rat.mul Rat.sub Rat.inv

/-- A concrete frame transform standing in for astropy in the witnesses:
latitude reads the x-coordinate, longitude reads the ITRS obstime. -/
def gEx : ℚ × ℚ × ℚ → ℚ → ℚ → ℚ × ℚ := fun p _ t2 => (p.1, t2)

/-- A concrete year-to-instant map standing in for astropy `Time` in the
witnesses. -/
def yIEx : ℤ → ℚ := fun y => (y : ℚ) * 1000

/-- A well-formed four-row ephemeris file: title line, epoch year 2020,
then rows `(raw_offset, x_ft, y_ft, z_ft)`, with an interspersed
`#`-comment line, a blank line, and a trailing comment on a data row —
all skipped or stripped by `np.loadtxt`. -/
def fileEx : MCCFile :=
  [[.other], [.num 2020, .other],
   [.num 0, .num 1, .num 0, .num 0],
   [.comment, .other],
   [.num 10, .num 2, .num 1, .num 1],
   [],
   [.num 20, .num 3, .num 2, .num 4],
   [.num 30, .num 4, .num 3, .num 9, .comment, .num 7]]

/-- The parsed rows of `fileEx`. -/
def rowsEx : List Row := [(0, 1, 0, 0), (10, 2, 1, 1), (20, 3, 2, 4),
  (30, 4, 3, 9)]

/-- The `MCC` state `MCC.init gEx 100 yIEx fileEx` constructs. -/
def mEx : MCC :=
  { mcc_epoch_year := 2020, mcc_epoch := 2020000,
    t := [2020000, 2020010, 2020020, 2020030],
    met := [2019900, 2019910, 2019920, 2019930],
    eci_x := [381 / 1250, 381 / 625, 1143 / 1250, 762 / 625],
    eci_y := [0, 381 / 1250, 381 / 625, 1143 / 1250],
    eci_z := [0, 381 / 1250, 762 / 625, 3429 / 1250],
    eci_x_interp := ⟨[2019900, 2019910, 2019920, 2019930].zip
      [381 / 1250, 381 / 625, 1143 / 1250, 762 / 625]⟩,
    eci_y_interp := ⟨[2019900, 2019910, 2019920, 2019930].zip
      [0, 381 / 1250, 381 / 625, 1143 / 1250]⟩,
    eci_z_interp := ⟨[2019900, 2019910, 2019920, 2019930].zip
      [0, 381 / 1250, 762 / 625, 3429 / 1250]⟩,
    lat := [381 / 1250, 381 / 625, 1143 / 1250, 762 / 625],
    lon := [2020000, 2020010, 2020020, 2020030] }

/-- A well-formed ephemeris file with only three data rows. -/
def fileEx3 : MCCFile :=
  [[.other], [.num 2020, .other],
   [.num 0, .num 1, .num 1, .num 1],
   [.num 10, .num 1, .num 1, .num 1],
   [.num 20, .num 1, .num 1, .num 1]]

/-- A well-formed ephemeris file with two data rows sharing the same raw
time offset. -/
def fileEx2dup : MCCFile :=
  [[.other], [.num 2020, .other],
   [.num 0, .num 1, .num 1, .num 1],
   [.num 0, .num 2, .num 2, .num 2]]

/-- The parsed rows of `fileEx3`. -/
def rowsEx3 : List Row := [(0, 1, 1, 1), (10, 1, 1, 1), (20, 1, 1, 1)]

theorem latlon_at_sample_witness :
    MCC.latlon gEx 100 mEx (mEx.met.get ⟨0, by decide⟩) =
      (.ok (mEx.lat.getD 0 0, mEx.lon.getD 0 0), mEx) :=
  latlon_at_sample gEx 100 yIEx fileEx mEx (by decide) 0 (by decide)

theorem latlon_range_rejection_witness :
    (MCC.latlon gEx 100 mEx 2019899 = (.error .outOfRange, mEx) ∧
      (∃ p, MCC.latlon gEx 100 mEx (mEx.met.getD 0 0) = (.ok p, mEx)) ∧
      (∃ p, MCC.latlon gEx 100 mEx
        (mEx.met.getD (mEx.met.length - 1) 0) = (.ok p, mEx)) ∧
      (∃ p, MCC.latlon gEx 100 (MCC.latlon gEx 100 mEx 2019899).2 2019905 =
        (.ok p, mEx))) :=
  latlon_range_rejection gEx 100 yIEx fileEx mEx (by decide) 2019899
    2019905 (by decide) (by decide) (by decide)

theorem met_epoch_arithmetic_witness :
    (mEx.mcc_epoch = yIEx (round (2020 : ℚ)) ∧
      mEx.met.getD 0 0 = (mEx.mcc_epoch + (rowsEx.getD 0 default).1) - 100) ∧
    mEx.met.getD 0 0 = yIEx 2020 - 100 :=
  ⟨met_epoch_arithmetic gEx 100 yIEx fileEx mEx 2020 rowsEx (by decide)
    (by decide) (by decide) 0 (by decide), by decide⟩

theorem position_feet_to_meters_witness :
    (mEx.eci_x.getD 0 0 = (rowsEx.getD 0 default).2.1 * (3048 / 10000) ∧
      mEx.eci_y.getD 0 0 = (rowsEx.getD 0 default).2.2.1 * (3048 / 10000) ∧
      mEx.eci_z.getD 0 0 = (rowsEx.getD 0 default).2.2.2 * (3048 / 10000)) ∧
    (mEx.eci_x.getD 0 0, mEx.eci_y.getD 0 0, mEx.eci_z.getD 0 0) =
      (3048 / 10000, 0, 0) :=
  ⟨position_feet_to_meters gEx 100 yIEx fileEx mEx rowsEx (by decide)
    (by decide) 0 (by decide), by decide⟩

theorem latlon_absolute_instant_witness :
    ∃ pos, MCC.latlon gEx 100 mEx 2019905 =
      (.ok (gEx pos (100 + 2019905) (100 + 2019905)), mEx) :=
  latlon_absolute_instant gEx 100 yIEx fileEx mEx (by decide) 2019905
    (by decide) (by decide)

theorem insufficient_samples_rejected_witness :
    (2 ≤ rowsEx3.length →
      List.Chain' (· < ·) (mccMet 100 (mccT yIEx 2020 rowsEx3)) →
      MCC.init gEx 100 yIEx fileEx3 = .error .insufficientSamples) ∧
    (∀ m, MCC.init gEx 100 yIEx fileEx3 ≠ .ok m) :=
  insufficient_samples_rejected gEx 100 yIEx fileEx3 2020 rowsEx3
    (by decide) (by decide) (by decide)

/-- C6 counterexample: a well-formed two-row table whose sample times are
not strictly increasing fails with the strictly-increasing rejection, not
with `InsufficientSamplesError`. -/
theorem init_dup_rows_not_insufficient :
    MCC.init gEx 100 yIEx fileEx2dup = .error .notStrictlyIncreasing ∧
      MCC.init gEx 100 yIEx fileEx2dup ≠
        .error .insufficientSamples := by
  exact ⟨by decide, by decide⟩

/-- C7 counterexample: a well-formed file with three data lines fails with
`InsufficientSamplesError`, not `FormatError`. -/
theorem init_three_rows_not_formatError :
    MCC.init gEx 100 yIEx fileEx3 = .error .insufficientSamples ∧
      MCC.init gEx 100 yIEx fileEx3 ≠ .error .formatError := by
  exact ⟨by decide, by decide⟩

theorem met_monotone_nodup_witness :
    (∀ m, MCC.init gEx 100 yIEx fileEx = .ok m →
      List.Chain' (· ≤ ·) m.met ∧ m.met.Nodup) ∧
    (¬ List.Chain' (· < ·) (mccMet 100 (mccT yIEx 2020 rowsEx)) →
      ∀ m, MCC.init gEx 100 yIEx fileEx ≠ .ok m) :=
  met_monotone_nodup gEx 100 yIEx fileEx 2020 rowsEx (by decide) (by decide)

end NICERsoft
